import Mathlib

/-!
# Verification of the cosey COSE_Key codec

A shallow embedding of `src/lib.rs` of the `cosey` crate: the raw-record
canonical-order CBOR-map decoder (`RawEcPublicKey::deserialize`), the
canonical serializer (`RawEcPublicKey::serialize`), the per-variant
constant check (`check_key_constants`) and the typed key variants
(`P256PublicKey`, `EcdhEsHkdf256PublicKey`, `Ed25519PublicKey`,
`TotpPublicKey`).

The map-entry level is embedded directly from the source.  The byte level
(the external `cbor-smol` CBOR reader/writer, which the specification
declares an out-of-scope collaborator) is modelled from the
specification's wire-format section.
-/

namespace Cosey

/-- A CBOR-style value as far as this codec is concerned: a signed integer,
a byte string (each element a byte), or a text string.  Map inputs are
sequences of key/value pairs of such values. -/
inductive Value where
  | int (n : Int)
  | bytes (b : List Nat)
  | text (s : String)
deriving DecidableEq, Repr

/-- The errors a decode can produce, mirroring the `serde::de::Error`
constructions used in `src/lib.rs`: `missing_field`, `invalid_value`
(from `check_key_constants`), the custom "public key data in wrong order
or with duplicates" error, the invalid-enumerator error produced by the
`Deserialize_repr` derives for `Kty`/`Alg`/`Crv`, and the underlying
deserializer's type/range errors (e.g. a map key that is not an `i8`). -/
inductive DeError where
  | missingField (name : String)
  | invalidValue (got : Int) (expected : Int)
  | wrongOrder
  | invalidEnum (got : Int)
  | typeError
deriving DecidableEq, Repr

/-- `enum Label` from `src/lib.rs` (labels of the COSE map fields). -/
inductive Label where
  | Kty
  | Alg
  | CrvOrPk
  | X
  | Y
deriving DecidableEq, Repr

/-- The `#[repr(i8)]` discriminants of `Label` (`Kty = 1`, `Alg = 3`,
`CrvOrPk = -1`, `X = -2`, `Y = -3`). -/
def Label.toInt : Label → Int
  | .Kty => 1
  | .Alg => 3
  | .CrvOrPk => -1
  | .X => -2
  | .Y => -3

/-- `impl TryFrom<i8> for Label` from `src/lib.rs`: the closed label set
`{1, 3, -1, -2, -3}`; anything else is not a label. -/
def Label.tryFrom (n : Int) : Option Label :=
  if n = 1 then some .Kty
  else if n = 3 then some .Alg
  else if n = -1 then some .CrvOrPk
  else if n = -2 then some .X
  else if n = -3 then some .Y
  else none

/-- `enum Kty` from `src/lib.rs` (the `Pqc` variant is behind a disabled
feature flag and is not part of the default build). -/
inductive Kty where
  | Okp
  | Ec2
  | Symmetric
deriving DecidableEq, Repr

/-- The `#[repr(i8)]` discriminants of `Kty`. -/
def Kty.toInt : Kty → Int
  | .Okp => 1
  | .Ec2 => 2
  | .Symmetric => 4

/-- `enum Alg` from `src/lib.rs` (the Dilithium variants are behind
disabled feature flags). -/
inductive Alg where
  | Es256
  | EdDsa
  | Totp
  | EcdhEsHkdf256
deriving DecidableEq, Repr

/-- The `#[repr(i8)]` discriminants of `Alg`. -/
def Alg.toInt : Alg → Int
  | .Es256 => -7
  | .EdDsa => -8
  | .Totp => -9
  | .EcdhEsHkdf256 => -25

/-- `enum Crv` from `src/lib.rs`. -/
inductive Crv where
  | None
  | P256
  | X25519
  | Ed25519
deriving DecidableEq, Repr

/-- The `#[repr(i8)]` discriminants of `Crv`. -/
def Crv.toInt : Crv → Int
  | .None => 0
  | .P256 => 1
  | .X25519 => 4
  | .Ed25519 => 6

/-- Deserializing an `i8` from a CBOR value, as the underlying
deserializer does for map keys (`map.next_key::<i8>()`): only integers in
`[-128, 127]` succeed; larger integers, byte strings and text fail. -/
def readI8 (v : Value) : Except DeError Int :=
  match v with
  | .int n => if -128 ≤ n ∧ n ≤ 127 then .ok n else .error .typeError
  | _ => .error .typeError

/-- The `Deserialize_repr` derive for `Kty`: read an `i8`, then map it to
an enumerator, failing on any non-enumerator value. -/
def deKty (v : Value) : Except DeError Kty :=
  match readI8 v with
  | .error e => .error e
  | .ok n =>
    if n = 1 then .ok .Okp
    else if n = 2 then .ok .Ec2
    else if n = 4 then .ok .Symmetric
    else .error (.invalidEnum n)

/-- The `Deserialize_repr` derive for `Alg`. -/
def deAlg (v : Value) : Except DeError Alg :=
  match readI8 v with
  | .error e => .error e
  | .ok n =>
    if n = -7 then .ok .Es256
    else if n = -8 then .ok .EdDsa
    else if n = -9 then .ok .Totp
    else if n = -25 then .ok .EcdhEsHkdf256
    else .error (.invalidEnum n)

/-- The `Deserialize_repr` derive for `Crv`. -/
def deCrv (v : Value) : Except DeError Crv :=
  match readI8 v with
  | .error e => .error e
  | .ok n =>
    if n = 0 then .ok .None
    else if n = 1 then .ok .P256
    else if n = 4 then .ok .X25519
    else if n = 6 then .ok .Ed25519
    else .error (.invalidEnum n)

/-- Deserializing a `Bytes<32>` (heapless fixed-capacity byte vector):
the value must be a byte string of length at most 32. -/
def deBytes32 (v : Value) : Except DeError (List Nat) :=
  match v with
  | .bytes b => if b.length ≤ 32 then .ok b else .error .typeError
  | _ => .error .typeError

/-- `struct RawEcPublicKey` from `src/lib.rs`: five optional slots. -/
structure RawEcPublicKey where
  kty : Option Kty := Option.none
  alg : Option Alg := Option.none
  crv : Option Crv := Option.none
  x : Option (List Nat) := Option.none
  y : Option (List Nat) := Option.none
deriving DecidableEq, Repr

/-- `enum Key` from the `IndexedVisitor` in `src/lib.rs`: a map key is a
recognized label, an unrecognized `i8`, or absent (end of map). -/
inductive MapKey where
  | label (l : Label)
  | unknown (n : Int)
  | none
deriving DecidableEq, Repr

/-- `fn next_key` from the `IndexedVisitor` in `src/lib.rs`: read the next
map key as an `i8` (an error if it is not one), classify it via
`Label::try_from`, or report end of map. -/
def next_key (entries : List (Value × Value)) : Except DeError MapKey :=
  match entries with
  | [] => .ok .none
  | (k, _) :: _ =>
    match readI8 k with
    | .error e => .error e
    | .ok n =>
      match Label.tryFrom n with
      | some l => .ok (.label l)
      | Option.none => .ok (.unknown n)

/-- Error-propagating sequencing for `Except DeError`, written explicitly
so that proofs can rewrite with its two equations. -/
def andThen (e : Except DeError α) (f : α → Except DeError β) : Except DeError β :=
  match e with
  | .error err => .error err
  | .ok a => f a

@[simp] theorem andThen_ok (a : α) (f : α → Except DeError β) :
    andThen (.ok a) f = f a := rfl

@[simp] theorem andThen_error (e : DeError) (f : α → Except DeError β) :
    andThen (.error e) f = .error e := rfl

/-- One `if key == Key::Label(l) {{ slot = Some(map.next_value()?); key = next_key(map)?; }}`
block of `visit_map` in `src/lib.rs`.  The state is the current
(classified) key together with the not-yet-consumed entries; when the key
matches, the pending entry's value is consumed with the slot's
deserializer and the following key is read.  (The empty-entries case
under a matched key cannot arise, since a label key is only ever produced
from a pending entry.) -/
def consumeSlot (l : Label) (dec : Value → Except DeError α)
    (key : MapKey) (entries : List (Value × Value)) :
    Except DeError (Option α × MapKey × List (Value × Value)) :=
  if key = MapKey.label l then
    match entries with
    | [] => .error .typeError
    | (_, v) :: rest =>
      andThen (dec v) fun a =>
      andThen (next_key rest) fun key2 =>
      .ok (some a, key2, rest)
  else
    .ok (Option.none, key, entries)

/-- `visit_map` of the `IndexedVisitor` in
`impl Deserialize for RawEcPublicKey` (`src/lib.rs`): read keys strictly
in the canonical order Kty, Alg, CrvOrPk, X, Y, each slot optional; stop
successfully at the first unrecognized key or at the end of the map; if a
recognized label remains pending after the five blocks, fail with the
"wrong order or duplicates" error. -/
def RawEcPublicKey.visit_map (entries : List (Value × Value)) :
    Except DeError RawEcPublicKey :=
  andThen (next_key entries) fun key =>
  andThen (consumeSlot Label.Kty deKty key entries) fun (kty, key, entries) =>
  andThen (consumeSlot Label.Alg deAlg key entries) fun (alg, key, entries) =>
  andThen (consumeSlot Label.CrvOrPk deCrv key entries) fun (crv, key, entries) =>
  andThen (consumeSlot Label.X deBytes32 key entries) fun (x, key, entries) =>
  andThen (consumeSlot Label.Y deBytes32 key entries) fun (y, key, _) =>
  match key with
  | .label _ => .error .wrongOrder
  | _ => .ok { kty := kty, alg := alg, crv := crv, x := x, y := y }

/-- `fn check_key_constants<K, E>` from `src/lib.rs`, with the variant's
three associated constants passed explicitly. -/
def check_key_constants (KTY : Kty) (ALG : Alg) (CRV : Crv)
    (kty : Option Kty) (alg : Option Alg) (crv : Option Crv) :
    Except DeError Unit :=
  match kty with
  | Option.none => .error (.missingField "kty")
  | some k =>
    if k ≠ KTY then .error (.invalidValue k.toInt KTY.toInt)
    else
      match alg with
      | some a =>
        if a ≠ ALG then .error (.invalidValue a.toInt ALG.toInt)
        else
          if CRV ≠ Crv.None then
            match crv with
            | Option.none => .error (.missingField "crv")
            | some c =>
              if c ≠ CRV then .error (.invalidValue c.toInt CRV.toInt)
              else .ok ()
          else .ok ()
      | Option.none =>
          if CRV ≠ Crv.None then
            match crv with
            | Option.none => .error (.missingField "crv")
            | some c =>
              if c ≠ CRV then .error (.invalidValue c.toInt CRV.toInt)
              else .ok ()
          else .ok ()

/-- `pub struct P256PublicKey` (x and y are 32-byte coordinates). -/
structure P256PublicKey where
  x : List Nat
  y : List Nat
deriving DecidableEq, Repr

/-- `impl From<P256PublicKey> for RawEcPublicKey`, injecting the
`PublicKeyConstants` of `P256PublicKey` (`Ec2`, `Es256`, `P256`). -/
def P256PublicKey.toRaw (k : P256PublicKey) : RawEcPublicKey :=
  { kty := some Kty.Ec2, alg := some Alg.Es256, crv := some Crv.P256,
    x := some k.x, y := some k.y }

/-- `impl Deserialize for P256PublicKey` from `src/lib.rs`. -/
def P256PublicKey.deserialize (entries : List (Value × Value)) :
    Except DeError P256PublicKey :=
  andThen (RawEcPublicKey.visit_map entries) fun r =>
  andThen (check_key_constants Kty.Ec2 Alg.Es256 Crv.P256 r.kty r.alg r.crv) fun _ =>
  match r.x with
  | Option.none => .error (.missingField "x")
  | some x =>
    match r.y with
    | Option.none => .error (.missingField "y")
    | some y => .ok { x := x, y := y }

/-- `pub struct EcdhEsHkdf256PublicKey`. -/
structure EcdhEsHkdf256PublicKey where
  x : List Nat
  y : List Nat
deriving DecidableEq, Repr

/-- `impl From<EcdhEsHkdf256PublicKey> for RawEcPublicKey` (constants
`Ec2`, `EcdhEsHkdf256`, `P256`). -/
def EcdhEsHkdf256PublicKey.toRaw (k : EcdhEsHkdf256PublicKey) : RawEcPublicKey :=
  { kty := some Kty.Ec2, alg := some Alg.EcdhEsHkdf256, crv := some Crv.P256,
    x := some k.x, y := some k.y }

/-- `impl Deserialize for EcdhEsHkdf256PublicKey` from `src/lib.rs`. -/
def EcdhEsHkdf256PublicKey.deserialize (entries : List (Value × Value)) :
    Except DeError EcdhEsHkdf256PublicKey :=
  andThen (RawEcPublicKey.visit_map entries) fun r =>
  andThen (check_key_constants Kty.Ec2 Alg.EcdhEsHkdf256 Crv.P256 r.kty r.alg r.crv) fun _ =>
  match r.x with
  | Option.none => .error (.missingField "x")
  | some x =>
    match r.y with
    | Option.none => .error (.missingField "y")
    | some y => .ok { x := x, y := y }

/-- `pub struct Ed25519PublicKey` (a single 32-byte coordinate). -/
structure Ed25519PublicKey where
  x : List Nat
deriving DecidableEq, Repr

/-- `impl From<Ed25519PublicKey> for RawEcPublicKey` (constants `Okp`,
`EdDsa`, `Ed25519`; the y slot stays empty). -/
def Ed25519PublicKey.toRaw (k : Ed25519PublicKey) : RawEcPublicKey :=
  { kty := some Kty.Okp, alg := some Alg.EdDsa, crv := some Crv.Ed25519,
    x := some k.x, y := Option.none }

/-- `impl Deserialize for Ed25519PublicKey` from `src/lib.rs` (the y slot
of the raw record is ignored). -/
def Ed25519PublicKey.deserialize (entries : List (Value × Value)) :
    Except DeError Ed25519PublicKey :=
  andThen (RawEcPublicKey.visit_map entries) fun r =>
  andThen (check_key_constants Kty.Okp Alg.EdDsa Crv.Ed25519 r.kty r.alg r.crv) fun _ =>
  match r.x with
  | Option.none => .error (.missingField "x")
  | some x => .ok { x := x }

/-- `pub struct TotpPublicKey {}` (the zero-payload symmetric marker key). -/
structure TotpPublicKey where
deriving DecidableEq, Repr

/-- `impl From<TotpPublicKey> for RawEcPublicKey` (constants `Symmetric`,
`Totp`, `Crv::None`; only kty and alg are populated). -/
def TotpPublicKey.toRaw (_k : TotpPublicKey) : RawEcPublicKey :=
  { kty := some Kty.Symmetric, alg := some Alg.Totp, crv := Option.none,
    x := Option.none, y := Option.none }

/-- Modelled from the spec: `src/lib.rs` implements `Deserialize` only for
the P256, ECDH and Ed25519 variants; a decoder for `TotpPublicKey` is
missing from the source.  Following the specification's uniform
typed-variant decode contract (raw-record parse, then
`check_key_constants` with the variant's constants, then extraction of
the required payload fields — of which this variant has none), the Totp
decode is the raw parse followed by the constant check. -/
def TotpPublicKey.deserializeSpec (entries : List (Value × Value)) :
    Except DeError TotpPublicKey :=
  andThen (RawEcPublicKey.visit_map entries) fun r =>
  andThen (check_key_constants Kty.Symmetric Alg.Totp Crv.None r.kty r.alg r.crv) fun _ =>
  .ok {}

/-- The `fields` count computed in `impl Serialize for RawEcPublicKey`
(`src/lib.rs`): the sum over the five slots of `usize::from(is_some)`. -/
def RawEcPublicKey.fieldsCount (r : RawEcPublicKey) : Nat :=
  ([r.kty.isSome, r.alg.isSome, r.crv.isSome, r.x.isSome, r.y.isSome].map
    fun b => if b then 1 else 0).sum

/-- The entry sequence emitted by `impl Serialize for RawEcPublicKey`
(`src/lib.rs`): one entry per present slot, written in the fixed order
kty (1), alg (3), crv (-1), x (-2), y (-3). -/
def RawEcPublicKey.serializeEntries (r : RawEcPublicKey) : List (Value × Value) :=
  (match r.kty with
    | some kty => [(Value.int Label.Kty.toInt, Value.int kty.toInt)]
    | Option.none => [])
  ++ (match r.alg with
    | some alg => [(Value.int Label.Alg.toInt, Value.int alg.toInt)]
    | Option.none => [])
  ++ (match r.crv with
    | some crv => [(Value.int Label.CrvOrPk.toInt, Value.int crv.toInt)]
    | Option.none => [])
  ++ (match r.x with
    | some x => [(Value.int Label.X.toInt, Value.bytes x)]
    | Option.none => [])
  ++ (match r.y with
    | some y => [(Value.int Label.Y.toInt, Value.bytes y)]
    | Option.none => [])

/-- Modelled from the spec: the head (initial bytes) of a CBOR data item
of the given major type and argument, as produced by the external
map-token writer the specification declares out of scope.  Only the sizes
this codec ever emits are modelled (arguments below 2^16; all integers
written by the codec are `i8` and all byte strings are at most 32 bytes). -/
def cborHead (major : Nat) (arg : Nat) : List Nat :=
  if arg < 24 then [32 * major + arg]
  else if arg < 256 then [32 * major + 24, arg]
  else if arg < 65536 then [32 * major + 25, arg / 256, arg % 256]
  else []

/-- Modelled from the spec: the byte encoding of a single value written by
the external writer — a small signed integer (major types 0/1) or a byte
string (major type 2).  The codec never writes text values. -/
def cborEncodeValue (v : Value) : List Nat :=
  match v with
  | .int n => if 0 ≤ n then cborHead 0 n.toNat else cborHead 1 (-1 - n).toNat
  | .bytes b => cborHead 2 b.length ++ b
  | .text _ => []

/-- Modelled from the spec: the byte encoding of a sequence of map
entries, each a key followed by its value. -/
def cborEncodeEntries (entries : List (Value × Value)) : List Nat :=
  (entries.map fun e => cborEncodeValue e.1 ++ cborEncodeValue e.2).flatten

/-- The byte output of `impl Serialize for RawEcPublicKey` through the
external CBOR writer: a map head declaring `fieldsCount` entries (major
type 5), followed by the canonical entry sequence. -/
def RawEcPublicKey.serializeBytes (r : RawEcPublicKey) : List Nat :=
  cborHead 5 r.fieldsCount ++ cborEncodeEntries r.serializeEntries

/-- Modelled from the spec: read the argument of a CBOR head given its
additional-information bits and the following bytes. -/
def cborReadArg (ai : Nat) (l : List Nat) : Except DeError (Nat × List Nat) :=
  if ai < 24 then .ok (ai, l)
  else if ai = 24 then
    match l with
    | c :: r => .ok (c, r)
    | [] => .error .typeError
  else if ai = 25 then
    match l with
    | c1 :: c2 :: r => .ok (c1 * 256 + c2, r)
    | _ => .error .typeError
  else .error .typeError

/-- Modelled from the spec: the external map-token reader's "read next
value" operation: parse one integer or byte-string data item. -/
def cborParseValue (l : List Nat) : Except DeError (Value × List Nat) :=
  match l with
  | [] => .error .typeError
  | b :: rest =>
    andThen (cborReadArg (b % 32) rest) fun p =>
    if b / 32 = 0 then .ok (.int p.1, p.2)
    else if b / 32 = 1 then .ok (.int (-1 - (p.1 : Int)), p.2)
    else if b / 32 = 2 then
      if p.1 ≤ p.2.length then .ok (.bytes (p.2.take p.1), p.2.drop p.1)
      else .error .typeError
    else .error .typeError

/-- Modelled from the spec: parse `n` consecutive map entries. -/
def cborParseEntries : Nat → List Nat → Except DeError (List (Value × Value) × List Nat)
  | 0, l => .ok ([], l)
  | n + 1, l =>
    andThen (cborParseValue l) fun kp =>
    andThen (cborParseValue kp.2) fun vp =>
    andThen (cborParseEntries n vp.2) fun ep =>
    .ok ((kp.1, vp.1) :: ep.1, ep.2)

/-- Modelled from the spec: the external map-token reader: a map head
(major type 5) followed by the declared number of entries.  Bytes after
the declared entries are not examined (the driver does not require the
whole buffer to be consumed). -/
def cborParseMap (l : List Nat) : Except DeError (List (Value × Value)) :=
  match l with
  | [] => .error .typeError
  | b :: rest =>
    if b / 32 = 5 then
      andThen (cborReadArg (b % 32) rest) fun p =>
      andThen (cborParseEntries p.1 p.2) fun ep =>
      .ok ep.1
    else .error .typeError

/-- Byte-level deserialization of a `P256PublicKey`: tokenize the map,
then run the entry-level decoder. -/
def P256PublicKey.deserializeBytes (l : List Nat) : Except DeError P256PublicKey :=
  andThen (cborParseMap l) P256PublicKey.deserialize

/-- Byte-level deserialization of an `EcdhEsHkdf256PublicKey`. -/
def EcdhEsHkdf256PublicKey.deserializeBytes (l : List Nat) :
    Except DeError EcdhEsHkdf256PublicKey :=
  andThen (cborParseMap l) EcdhEsHkdf256PublicKey.deserialize

/-- Byte-level deserialization of an `Ed25519PublicKey`. -/
def Ed25519PublicKey.deserializeBytes (l : List Nat) : Except DeError Ed25519PublicKey :=
  andThen (cborParseMap l) Ed25519PublicKey.deserialize

/-- Byte-level deserialization of a `TotpPublicKey`, built on the
spec-modelled entry-level Totp decoder. -/
def TotpPublicKey.deserializeBytesSpec (l : List Nat) : Except DeError TotpPublicKey :=
  andThen (cborParseMap l) TotpPublicKey.deserializeSpec

/-- The values the byte-level round-trip covers: integers and byte-string
lengths within the head sizes modelled by `cborHead`. -/
def ValueWF : Value → Prop
  | .int n => -65536 < n ∧ n < 65536
  | .bytes b => b.length < 65536
  | .text _ => False

/-- `decFailed e` is `true` exactly when the decode `e` returned an error. -/
def decFailed (e : Except DeError α) : Bool :=
  match e with
  | .ok _ => false
  | .error _ => true

@[simp] theorem decFailed_ok (a : α) : decFailed (Except.ok a : Except DeError α) = false := rfl

@[simp] theorem decFailed_error (e : DeError) :
    decFailed (Except.error e : Except DeError α) = true := rfl

/-- Parsing the encoding of a well-formed value consumes exactly that
encoding and returns the value. -/
theorem cborParseValue_encode (v : Value) (hv : ValueWF v) (r : List Nat) :
    cborParseValue (cborEncodeValue v ++ r) = .ok (v, r) := by
  cases v with
  | text s => exact absurd hv id
  | int n =>
    rcases hv with ⟨h1, h2⟩
    by_cases h0 : 0 ≤ n
    · have harg : n.toNat < 65536 := by omega
      simp only [cborEncodeValue, if_pos h0, cborHead]
      by_cases hs : n.toNat < 24
      · simp only [if_pos hs, List.cons_append, List.nil_append, cborParseValue]
        have hd : n.toNat / 32 = 0 := by omega
        have hm : n.toNat % 32 = n.toNat := by omega
        simp [cborReadArg, hd, hm, hs, andThen, h0] <;> omega
      · simp only [if_neg hs]
        by_cases hs2 : n.toNat < 256
        · simp only [if_pos hs2, List.cons_append, List.nil_append, cborParseValue]
          simp [cborReadArg, andThen] <;> omega
        · simp only [if_neg hs2, if_pos harg, List.cons_append, List.nil_append,
            cborParseValue]
          simp [cborReadArg, andThen] <;> omega
    · have hneg : ¬ (0 : Int) ≤ n := h0
      have harg : (-1 - n).toNat < 65536 := by omega
      simp only [cborEncodeValue, if_neg hneg, cborHead]
      by_cases hs : (-1 - n).toNat < 24
      · simp only [if_pos hs, List.cons_append, List.nil_append, cborParseValue]
        have hd : (32 + (-1 - n).toNat) / 32 = 1 := by omega
        have hm : (32 + (-1 - n).toNat) % 32 = (-1 - n).toNat := by omega
        simp [cborReadArg, hd, hm, hs, andThen] <;> omega
      · simp only [if_neg hs]
        by_cases hs2 : (-1 - n).toNat < 256
        · simp only [if_pos hs2, List.cons_append, List.nil_append, cborParseValue]
          have hd : (32 + 24) / 32 = 1 := by norm_num
          simp [cborReadArg, andThen, hd] <;> omega
        · simp only [if_neg hs2, if_pos harg, List.cons_append, List.nil_append,
            cborParseValue]
          simp [cborReadArg, andThen] <;> omega
  | bytes b =>
    have hlen : b.length < 65536 := hv
    simp only [cborEncodeValue, cborHead]
    by_cases hs : b.length < 24
    · simp only [if_pos hs, List.cons_append, List.append_assoc, cborParseValue]
      have hd : (32 * 2 + b.length) / 32 = 2 := by omega
      have hm : (32 * 2 + b.length) % 32 = b.length := by omega
      have hle : b.length ≤ (b ++ r).length := by simp
      simp [cborReadArg, hd, hm, hs, andThen, hle, List.take_left, List.drop_left]
    · simp only [if_neg hs]
      by_cases hs2 : b.length < 256
      · simp only [if_pos hs2, List.cons_append, List.append_assoc, cborParseValue]
        have hle : b.length ≤ (b ++ r).length := by simp
        simp [cborReadArg, andThen, hle, List.take_left, List.drop_left]
      · simp only [if_neg hs2, if_pos hlen, List.cons_append, List.append_assoc,
          cborParseValue]
        have hle : b.length ≤ (b ++ r).length := by simp
        have hrc : b.length / 256 * 256 + b.length % 256 = b.length := by omega
        simp [cborReadArg, andThen, hrc, hle, List.take_left, List.drop_left] <;> omega

/-- Parsing `n` entries from the encoding of an `n`-entry well-formed
sequence returns that sequence and the trailing bytes. -/
theorem cborParseEntries_encode (es : List (Value × Value))
    (h : ∀ e ∈ es, ValueWF e.1 ∧ ValueWF e.2) (r : List Nat) :
    cborParseEntries es.length (cborEncodeEntries es ++ r) = .ok (es, r) := by
  induction es with
  | nil => simp [cborEncodeEntries, cborParseEntries]
  | cons e tl ih =>
    have he : ValueWF e.1 ∧ ValueWF e.2 := h e (by simp)
    have htl : ∀ e ∈ tl, ValueWF e.1 ∧ ValueWF e.2 := fun e he => h e (by simp [he])
    simp only [cborEncodeEntries, List.map_cons, List.flatten_cons, List.length_cons,
      cborParseEntries, List.append_assoc]
    rw [cborParseValue_encode e.1 he.1, andThen_ok, cborParseValue_encode e.2 he.2,
      andThen_ok]
    have := ih htl
    simp only [cborEncodeEntries] at this
    rw [this, andThen_ok]

/-- The serializer's declared entry count equals the length of the entry
sequence it emits (one entry per present slot). -/
theorem RawEcPublicKey.fieldsCount_eq_length (r : RawEcPublicKey) :
    r.fieldsCount = r.serializeEntries.length := by
  rcases r with ⟨k, a, c, x, y⟩
  cases k <;> cases a <;> cases c <;> cases x <;> cases y <;> rfl

/-- A raw record never emits more than five entries. -/
theorem RawEcPublicKey.serializeEntries_length_le (r : RawEcPublicKey) :
    r.serializeEntries.length ≤ 5 := by
  rcases r with ⟨k, a, c, x, y⟩
  cases k <;> cases a <;> cases c <;> cases x <;> cases y <;> simp [serializeEntries]

/-- Tokenizing the serializer's byte output recovers exactly the emitted
entry sequence, provided every emitted value fits the modelled head sizes. -/
theorem cborParseMap_serializeBytes (r : RawEcPublicKey)
    (h : ∀ e ∈ r.serializeEntries, ValueWF e.1 ∧ ValueWF e.2) :
    cborParseMap r.serializeBytes = .ok r.serializeEntries := by
  have hc : r.fieldsCount = r.serializeEntries.length := r.fieldsCount_eq_length
  have h5 : r.serializeEntries.length ≤ 5 := r.serializeEntries_length_le
  have hparse := cborParseEntries_encode r.serializeEntries h []
  rw [List.append_nil] at hparse
  have hlt : r.serializeEntries.length < 24 := by omega
  have hd : (32 * 5 + r.serializeEntries.length) / 32 = 5 := by omega
  have hm : (32 * 5 + r.serializeEntries.length) % 32 = r.serializeEntries.length := by
    omega
  simp only [RawEcPublicKey.serializeBytes, hc, cborHead, if_pos hlt,
    List.cons_append, List.nil_append, cborParseMap, hd, if_pos rfl, cborReadArg,
    hm, hlt, and_self, ite_true, andThen_ok, hparse]

/-- Decoding the canonically-ordered Ec2 entry list (kty 2, an alg value,
crv 1, x, y) fills all five raw slots. -/
theorem visit_map_ec2 (va : Value) (a : Alg) (ha : deAlg va = .ok a)
    (x y : List Nat) (hx : x.length ≤ 32) (hy : y.length ≤ 32) :
    RawEcPublicKey.visit_map
      [(Value.int 1, Value.int 2), (Value.int 3, va), (Value.int (-1), Value.int 1),
        (Value.int (-2), Value.bytes x), (Value.int (-3), Value.bytes y)] =
      .ok { kty := some Kty.Ec2, alg := some a, crv := some Crv.P256,
            x := some x, y := some y } := by
  simp [RawEcPublicKey.visit_map, consumeSlot, next_key, readI8, Label.tryFrom,
    deKty, ha, deCrv, deBytes32, hx, hy]

/-- Decoding the Ec2 entry list without an alg entry leaves the alg slot
empty and fills the others. -/
theorem visit_map_ec2_noalg (x y : List Nat) (hx : x.length ≤ 32) (hy : y.length ≤ 32) :
    RawEcPublicKey.visit_map
      [(Value.int 1, Value.int 2), (Value.int (-1), Value.int 1),
        (Value.int (-2), Value.bytes x), (Value.int (-3), Value.bytes y)] =
      .ok { kty := some Kty.Ec2, alg := Option.none, crv := some Crv.P256,
            x := some x, y := some y } := by
  simp [RawEcPublicKey.visit_map, consumeSlot, next_key, readI8, Label.tryFrom,
    deKty, deCrv, deBytes32, hx, hy]

/-- Decoding the canonically-ordered Okp entry list (kty 1, an alg value,
crv 6, x). -/
theorem visit_map_okp (va : Value) (a : Alg) (ha : deAlg va = .ok a)
    (x : List Nat) (hx : x.length ≤ 32) :
    RawEcPublicKey.visit_map
      [(Value.int 1, Value.int 1), (Value.int 3, va), (Value.int (-1), Value.int 6),
        (Value.int (-2), Value.bytes x)] =
      .ok { kty := some Kty.Okp, alg := some a, crv := some Crv.Ed25519,
            x := some x, y := Option.none } := by
  simp [RawEcPublicKey.visit_map, consumeSlot, next_key, readI8, Label.tryFrom,
    deKty, ha, deCrv, deBytes32, hx]

/-- Decoding the Okp entry list without an alg entry. -/
theorem visit_map_okp_noalg (x : List Nat) (hx : x.length ≤ 32) :
    RawEcPublicKey.visit_map
      [(Value.int 1, Value.int 1), (Value.int (-1), Value.int 6),
        (Value.int (-2), Value.bytes x)] =
      .ok { kty := some Kty.Okp, alg := Option.none, crv := some Crv.Ed25519,
            x := some x, y := Option.none } := by
  simp [RawEcPublicKey.visit_map, consumeSlot, next_key, readI8, Label.tryFrom,
    deKty, deCrv, deBytes32, hx]

/-- Decoding the canonically-ordered Symmetric entry list (kty 4, an alg
value) fills only the kty and alg slots. -/
theorem visit_map_sym (va : Value) (a : Alg) (ha : deAlg va = .ok a) :
    RawEcPublicKey.visit_map [(Value.int 1, Value.int 4), (Value.int 3, va)] =
      .ok { kty := some Kty.Symmetric, alg := some a, crv := Option.none,
            x := Option.none, y := Option.none } := by
  simp [RawEcPublicKey.visit_map, consumeSlot, next_key, readI8, Label.tryFrom,
    deKty, ha]

/-- Decoding a one-entry Symmetric list (kty only). -/
theorem visit_map_sym_noalg :
    RawEcPublicKey.visit_map [(Value.int 1, Value.int 4)] =
      .ok { kty := some Kty.Symmetric, alg := Option.none, crv := Option.none,
            x := Option.none, y := Option.none } := by
  simp [RawEcPublicKey.visit_map, consumeSlot, next_key, readI8, Label.tryFrom, deKty]


/-- `next_key` classifies a leading key 1 as the Kty label. -/
theorem next_key_one (v : Value) (t : List (Value × Value)) :
    next_key ((Value.int 1, v) :: t) = .ok (.label .Kty) := by
  simp [next_key, readI8, Label.tryFrom]

/-- `next_key` classifies a leading key 3 as the Alg label. -/
theorem next_key_three (v : Value) (t : List (Value × Value)) :
    next_key ((Value.int 3, v) :: t) = .ok (.label .Alg) := by
  simp [next_key, readI8, Label.tryFrom]

/-- `next_key` classifies a leading key -1 as the CrvOrPk label. -/
theorem next_key_neg_one (v : Value) (t : List (Value × Value)) :
    next_key ((Value.int (-1), v) :: t) = .ok (.label .CrvOrPk) := by
  simp [next_key, readI8, Label.tryFrom]

/-- `next_key` classifies a leading key -2 as the X label. -/
theorem next_key_neg_two (v : Value) (t : List (Value × Value)) :
    next_key ((Value.int (-2), v) :: t) = .ok (.label .X) := by
  simp [next_key, readI8, Label.tryFrom]

/-- `next_key` classifies a leading key -3 as the Y label. -/
theorem next_key_neg_three (v : Value) (t : List (Value × Value)) :
    next_key ((Value.int (-3), v) :: t) = .ok (.label .Y) := by
  simp [next_key, readI8, Label.tryFrom]

/-- `next_key` reports the end of the map on an empty entry list. -/
theorem next_key_nil : next_key [] = .ok .none := rfl

set_option maxHeartbeats 4000000 in
/-- Any non-canonical permutation of a five-entry Ec2 field list (keys
1, 3, -1, -2, -3, with values that each decode in their own slot) makes
the raw-record parser fail. -/
theorem visit_map_ec2_perm_fail
    (vk va vc vx vy : Value) (k : Kty) (a : Alg) (c : Crv) (bx byl : List Nat)
    (hk : deKty vk = .ok k) (ha : deAlg va = .ok a) (hc : deCrv vc = .ok c)
    (hx : deBytes32 vx = .ok bx) (hy : deBytes32 vy = .ok byl) :
    ∀ p, List.Perm p
        [(Value.int 1, vk), (Value.int 3, va), (Value.int (-1), vc),
          (Value.int (-2), vx), (Value.int (-3), vy)] →
      p ≠ [(Value.int 1, vk), (Value.int 3, va), (Value.int (-1), vc),
          (Value.int (-2), vx), (Value.int (-3), vy)] →
      decFailed (RawEcPublicKey.visit_map p) = true := by
  set e1 : Value × Value := (Value.int 1, vk) with he1
  set e2 : Value × Value := (Value.int 3, va) with he2
  set e3 : Value × Value := (Value.int (-1), vc) with he3
  set e4 : Value × Value := (Value.int (-2), vx) with he4
  set e5 : Value × Value := (Value.int (-3), vy) with he5
  intro p hp hne
  have hmem := List.mem_permutations'.mpr hp
  clear hp
  simp only [List.permutations', List.permutations'Aux, List.flatMap_cons,
    List.flatMap_nil, List.map_cons, List.map_nil, List.append_nil, List.cons_append,
    List.nil_append, List.mem_cons, List.not_mem_nil, or_false] at hmem
  rcases hmem with rfl | rfl | rfl | rfl | rfl | rfl | rfl | rfl | rfl | rfl | rfl | rfl | rfl | rfl | rfl | rfl | rfl | rfl | rfl | rfl | rfl | rfl | rfl | rfl | rfl | rfl | rfl | rfl | rfl | rfl | rfl | rfl | rfl | rfl | rfl | rfl | rfl | rfl | rfl | rfl | rfl | rfl | rfl | rfl | rfl | rfl | rfl | rfl | rfl | rfl | rfl | rfl | rfl | rfl | rfl | rfl | rfl | rfl | rfl | rfl | rfl | rfl | rfl | rfl | rfl | rfl | rfl | rfl | rfl | rfl | rfl | rfl | rfl | rfl | rfl | rfl | rfl | rfl | rfl | rfl | rfl | rfl | rfl | rfl | rfl | rfl | rfl | rfl | rfl | rfl | rfl | rfl | rfl | rfl | rfl | rfl | rfl | rfl | rfl | rfl | rfl | rfl | rfl | rfl | rfl | rfl | rfl | rfl | rfl | rfl | rfl | rfl | rfl | rfl | rfl | rfl | rfl | rfl | rfl | rfl <;>
    first
    | exact absurd rfl hne
    | simp only [he1, he2, he3, he4, he5, RawEcPublicKey.visit_map, consumeSlot,
        next_key_one, next_key_three, next_key_neg_one, next_key_neg_two,
        next_key_neg_three, next_key_nil, hk, ha, hc, hx, hy, andThen_ok,
        andThen_error, MapKey.label.injEq, reduceCtorEq, reduceIte, decFailed_error,
        eq_self_iff_true, if_true, if_false, ite_true, ite_false]

set_option maxHeartbeats 1000000 in
/-- Any non-canonical permutation of a four-entry Okp field list (keys
1, 3, -1, -2) makes the raw-record parser fail. -/
theorem visit_map_okp_perm_fail
    (vk va vc vx : Value) (k : Kty) (a : Alg) (c : Crv) (bx : List Nat)
    (hk : deKty vk = .ok k) (ha : deAlg va = .ok a) (hc : deCrv vc = .ok c)
    (hx : deBytes32 vx = .ok bx) :
    ∀ p, List.Perm p
        [(Value.int 1, vk), (Value.int 3, va), (Value.int (-1), vc),
          (Value.int (-2), vx)] →
      p ≠ [(Value.int 1, vk), (Value.int 3, va), (Value.int (-1), vc),
          (Value.int (-2), vx)] →
      decFailed (RawEcPublicKey.visit_map p) = true := by
  set e1 : Value × Value := (Value.int 1, vk) with he1
  set e2 : Value × Value := (Value.int 3, va) with he2
  set e3 : Value × Value := (Value.int (-1), vc) with he3
  set e4 : Value × Value := (Value.int (-2), vx) with he4
  intro p hp hne
  have hmem := List.mem_permutations'.mpr hp
  clear hp
  simp only [List.permutations', List.permutations'Aux, List.flatMap_cons,
    List.flatMap_nil, List.map_cons, List.map_nil, List.append_nil, List.cons_append,
    List.nil_append, List.mem_cons, List.not_mem_nil, or_false] at hmem
  rcases hmem with rfl | rfl | rfl | rfl | rfl | rfl | rfl | rfl | rfl | rfl | rfl | rfl | rfl | rfl | rfl | rfl | rfl | rfl | rfl | rfl | rfl | rfl | rfl | rfl <;>
    first
    | exact absurd rfl hne
    | simp only [he1, he2, he3, he4, RawEcPublicKey.visit_map, consumeSlot,
        next_key_one, next_key_three, next_key_neg_one, next_key_neg_two,
        next_key_neg_three, next_key_nil, hk, ha, hc, hx, andThen_ok,
        andThen_error, MapKey.label.injEq, reduceCtorEq, reduceIte, decFailed_error,
        eq_self_iff_true, if_true, if_false, ite_true, ite_false]

/-- Swapping the two entries of a Symmetric field list (keys 1, 3) makes
the raw-record parser fail. -/
theorem visit_map_sym_perm_fail
    (vk va : Value) (k : Kty) (a : Alg)
    (hk : deKty vk = .ok k) (ha : deAlg va = .ok a) :
    ∀ p, List.Perm p [(Value.int 1, vk), (Value.int 3, va)] →
      p ≠ [(Value.int 1, vk), (Value.int 3, va)] →
      decFailed (RawEcPublicKey.visit_map p) = true := by
  set e1 : Value × Value := (Value.int 1, vk) with he1
  set e2 : Value × Value := (Value.int 3, va) with he2
  intro p hp hne
  have hmem := List.mem_permutations'.mpr hp
  clear hp
  simp only [List.permutations', List.permutations'Aux, List.flatMap_cons,
    List.flatMap_nil, List.map_cons, List.map_nil, List.append_nil, List.cons_append,
    List.nil_append, List.mem_cons, List.not_mem_nil, or_false] at hmem
  rcases hmem with rfl | rfl <;>
    first
    | exact absurd rfl hne
    | simp only [he1, he2, RawEcPublicKey.visit_map, consumeSlot,
        next_key_one, next_key_three, next_key_nil, hk, ha, andThen_ok,
        andThen_error, MapKey.label.injEq, reduceCtorEq, reduceIte, decFailed_error,
        eq_self_iff_true, if_true, if_false, ite_true, ite_false]


/-- Decoding a complete canonically-ordered Ec2 field list followed by
trailing entries whose first key is not a recognized label succeeds and
ignores the trailing entries. -/
theorem visit_map_ec2_trailing (va : Value) (a : Alg) (ha : deAlg va = .ok a)
    (x y : List Nat) (hx : x.length ≤ 32) (hy : y.length ≤ 32)
    (t : List (Value × Value)) (kt : MapKey) (ht : next_key t = .ok kt)
    (hkt : ∀ l : Label, kt ≠ .label l) :
    RawEcPublicKey.visit_map
      ([(Value.int 1, Value.int 2), (Value.int 3, va), (Value.int (-1), Value.int 1),
        (Value.int (-2), Value.bytes x), (Value.int (-3), Value.bytes y)] ++ t) =
      .ok { kty := some Kty.Ec2, alg := some a, crv := some Crv.P256,
            x := some x, y := some y } := by
  cases kt with
  | label l => exact absurd rfl (hkt l)
  | unknown n =>
    simp [RawEcPublicKey.visit_map, consumeSlot, next_key_one, next_key_three,
      next_key_neg_one, next_key_neg_two, next_key_neg_three, ht, deKty, ha, deCrv,
      deBytes32, hx, hy, readI8, Label.tryFrom]
  | none =>
    simp [RawEcPublicKey.visit_map, consumeSlot, next_key_one, next_key_three,
      next_key_neg_one, next_key_neg_two, next_key_neg_three, ht, deKty, ha, deCrv,
      deBytes32, hx, hy, readI8, Label.tryFrom]

/-- Decoding a complete canonically-ordered Okp field list followed by
trailing entries whose first key is not a recognized label succeeds and
ignores the trailing entries. -/
theorem visit_map_okp_trailing (va : Value) (a : Alg) (ha : deAlg va = .ok a)
    (x : List Nat) (hx : x.length ≤ 32)
    (t : List (Value × Value)) (kt : MapKey) (ht : next_key t = .ok kt)
    (hkt : ∀ l : Label, kt ≠ .label l) :
    RawEcPublicKey.visit_map
      ([(Value.int 1, Value.int 1), (Value.int 3, va), (Value.int (-1), Value.int 6),
        (Value.int (-2), Value.bytes x)] ++ t) =
      .ok { kty := some Kty.Okp, alg := some a, crv := some Crv.Ed25519,
            x := some x, y := Option.none } := by
  cases kt with
  | label l => exact absurd rfl (hkt l)
  | unknown n =>
    simp [RawEcPublicKey.visit_map, consumeSlot, next_key_one, next_key_three,
      next_key_neg_one, next_key_neg_two, ht, deKty, ha, deCrv, deBytes32, hx,
      readI8, Label.tryFrom]
  | none =>
    simp [RawEcPublicKey.visit_map, consumeSlot, next_key_one, next_key_three,
      next_key_neg_one, next_key_neg_two, ht, deKty, ha, deCrv, deBytes32, hx,
      readI8, Label.tryFrom]

/-- Decoding a complete canonically-ordered Symmetric field list followed
by trailing entries whose first key is not a recognized label succeeds and
ignores the trailing entries. -/
theorem visit_map_sym_trailing (va : Value) (a : Alg) (ha : deAlg va = .ok a)
    (t : List (Value × Value)) (kt : MapKey) (ht : next_key t = .ok kt)
    (hkt : ∀ l : Label, kt ≠ .label l) :
    RawEcPublicKey.visit_map
      ([(Value.int 1, Value.int 4), (Value.int 3, va)] ++ t) =
      .ok { kty := some Kty.Symmetric, alg := some a, crv := Option.none,
            x := Option.none, y := Option.none } := by
  cases kt with
  | label l => exact absurd rfl (hkt l)
  | unknown n =>
    simp [RawEcPublicKey.visit_map, consumeSlot, next_key_one, next_key_three,
      ht, deKty, ha, readI8, Label.tryFrom]
  | none =>
    simp [RawEcPublicKey.visit_map, consumeSlot, next_key_one, next_key_three,
      ht, deKty, ha, readI8, Label.tryFrom]

/-- Appending an entry with any recognized label after a complete Ec2
field list makes the raw-record parser fail (all five slots already
consumed, so a pending label is an out-of-order or duplicate field). -/
theorem visit_map_ec2_append_label (va : Value) (a : Alg) (ha : deAlg va = .ok a)
    (x y : List Nat) (hx : x.length ≤ 32) (hy : y.length ≤ 32)
    (l : Label) (w : Value) (t : List (Value × Value)) :
    decFailed (RawEcPublicKey.visit_map
      ([(Value.int 1, Value.int 2), (Value.int 3, va), (Value.int (-1), Value.int 1),
        (Value.int (-2), Value.bytes x), (Value.int (-3), Value.bytes y)] ++
        (Value.int l.toInt, w) :: t)) = true := by
  cases l <;>
    simp [RawEcPublicKey.visit_map, consumeSlot, next_key_one, next_key_three,
      next_key_neg_one, next_key_neg_two, next_key_neg_three, Label.toInt,
      deKty, ha, deCrv, deBytes32, hx, hy, readI8, Label.tryFrom]

/-- Appending an entry with a recognized label other than Y after a
complete Okp field list makes the raw-record parser fail. -/
theorem visit_map_okp_append_label (va : Value) (a : Alg) (ha : deAlg va = .ok a)
    (x : List Nat) (hx : x.length ≤ 32)
    (l : Label) (hl : l ≠ Label.Y) (w : Value) (t : List (Value × Value)) :
    decFailed (RawEcPublicKey.visit_map
      ([(Value.int 1, Value.int 1), (Value.int 3, va), (Value.int (-1), Value.int 6),
        (Value.int (-2), Value.bytes x)] ++ (Value.int l.toInt, w) :: t)) = true := by
  cases l <;>
    first
    | exact absurd rfl hl
    | simp [RawEcPublicKey.visit_map, consumeSlot, next_key_one, next_key_three,
        next_key_neg_one, next_key_neg_two, next_key_neg_three, Label.toInt,
        deKty, ha, deCrv, deBytes32, hx, readI8, Label.tryFrom]

/-- Appending an entry with label Kty or Alg after a complete Symmetric
field list makes the raw-record parser fail. -/
theorem visit_map_sym_append_label (va : Value) (a : Alg) (ha : deAlg va = .ok a)
    (l : Label) (hl : l = Label.Kty ∨ l = Label.Alg) (w : Value)
    (t : List (Value × Value)) :
    decFailed (RawEcPublicKey.visit_map
      ([(Value.int 1, Value.int 4), (Value.int 3, va)] ++
        (Value.int l.toInt, w) :: t)) = true := by
  rcases hl with rfl | rfl <;>
    simp [RawEcPublicKey.visit_map, consumeSlot, next_key_one, next_key_three,
      Label.toInt, deKty, ha, readI8, Label.tryFrom]


deriving instance DecidableEq for Except

deriving instance Fintype for Kty
deriving instance Fintype for Alg
deriving instance Fintype for Crv
deriving instance Fintype for Label

/-- The four typed key variants of the default build, with their
`PublicKeyConstants` impls from `src/lib.rs`. -/
inductive KeyVariant where
  | p256
  | ecdhEsHkdf256
  | ed25519
  | totp
deriving DecidableEq, Repr, Fintype

/-- The `KTY` constant of each variant's `PublicKeyConstants` impl. -/
def KeyVariant.KTY : KeyVariant → Kty
  | .p256 => Kty.Ec2
  | .ecdhEsHkdf256 => Kty.Ec2
  | .ed25519 => Kty.Okp
  | .totp => Kty.Symmetric

/-- The `ALG` constant of each variant's `PublicKeyConstants` impl. -/
def KeyVariant.ALG : KeyVariant → Alg
  | .p256 => Alg.Es256
  | .ecdhEsHkdf256 => Alg.EcdhEsHkdf256
  | .ed25519 => Alg.EdDsa
  | .totp => Alg.Totp

/-- The `CRV` constant of each variant's `PublicKeyConstants` impl. -/
def KeyVariant.CRV : KeyVariant → Crv
  | .p256 => Crv.P256
  | .ecdhEsHkdf256 => Crv.P256
  | .ed25519 => Crv.Ed25519
  | .totp => Crv.None

/-- The serialized value held by a slot of a raw record, if present. -/
def slotValue (r : RawEcPublicKey) : Label → Option Value
  | .Kty => r.kty.map fun v => Value.int v.toInt
  | .Alg => r.alg.map fun v => Value.int v.toInt
  | .CrvOrPk => r.crv.map fun v => Value.int v.toInt
  | .X => r.x.map Value.bytes
  | .Y => r.y.map Value.bytes

set_option synthInstance.maxHeartbeats 1000000 in
set_option synthInstance.maxSize 2000 in
set_option maxHeartbeats 2000000 in
/-- C3: for every variant and every recovered optional (kty, alg, crv)
triple, `check_key_constants` succeeds exactly when kty is present and
matches, alg is absent or matches, and crv matches unless the variant's
required crv is the `Crv::None` sentinel; a missing kty (or missing crv
when required) is reported as a missing-field error, and a
present-but-different kty, alg, or crv as a wrong-value error. -/
theorem claim_C3_check_key_constants :
    ∀ (V : KeyVariant) (kty : Option Kty) (alg : Option Alg) (crv : Option Crv),
      (check_key_constants V.KTY V.ALG V.CRV kty alg crv = .ok () ↔
        (kty = some V.KTY ∧ (alg = Option.none ∨ alg = some V.ALG) ∧
          (V.CRV = Crv.None ∨ crv = some V.CRV))) ∧
      (kty = Option.none →
        check_key_constants V.KTY V.ALG V.CRV kty alg crv =
          .error (.missingField "kty")) ∧
      (∀ k : Kty, kty = some k → k ≠ V.KTY →
        check_key_constants V.KTY V.ALG V.CRV kty alg crv =
          .error (.invalidValue k.toInt V.KTY.toInt)) ∧
      (∀ a : Alg, kty = some V.KTY → alg = some a → a ≠ V.ALG →
        check_key_constants V.KTY V.ALG V.CRV kty alg crv =
          .error (.invalidValue a.toInt V.ALG.toInt)) ∧
      (kty = some V.KTY → (alg = Option.none ∨ alg = some V.ALG) →
        V.CRV ≠ Crv.None → crv = Option.none →
        check_key_constants V.KTY V.ALG V.CRV kty alg crv =
          .error (.missingField "crv")) ∧
      (∀ c : Crv, kty = some V.KTY → (alg = Option.none ∨ alg = some V.ALG) →
        V.CRV ≠ Crv.None → crv = some c → c ≠ V.CRV →
        check_key_constants V.KTY V.ALG V.CRV kty alg crv =
          .error (.invalidValue c.toInt V.CRV.toInt)) := by
  decide

/-- C6: serialization of a raw record emits exactly one entry per present
slot, in the fixed canonical label order (1, 3, -1, -2, -3), with absent
slots contributing nothing, and the declared map size (the `fields` count)
equals the number of emitted entries. -/
theorem claim_C6_serializer_canonical :
    ∀ r : RawEcPublicKey,
      r.serializeEntries =
        [Label.Kty, Label.Alg, Label.CrvOrPk, Label.X, Label.Y].filterMap
          (fun l => (slotValue r l).map fun v => (Value.int l.toInt, v)) ∧
      r.fieldsCount = r.serializeEntries.length := by
  intro r
  rcases r with ⟨k, a, c, x, y⟩
  cases k <;> cases a <;> cases c <;> cases x <;> cases y <;>
    exact ⟨rfl, rfl⟩

/-- C10: serializing the zero-payload `TotpPublicKey` always emits exactly
the two-entry map kty = 4 (Symmetric), alg = -9 (Totp), in that order —
never a crv, x or y entry — and its byte encoding is `a2 01 04 03 28`. -/
theorem claim_C10_totp_serialization :
    ∀ k : TotpPublicKey,
      k.toRaw.serializeEntries =
        [(Value.int 1, Value.int 4), (Value.int 3, Value.int (-9))] ∧
      k.toRaw.serializeBytes = [0xa2, 0x01, 0x04, 0x03, 0x28] := by
  intro k
  exact ⟨rfl, rfl⟩

/-- The 32-byte all-0xFF coordinate used by the concrete test vector. -/
def ffBytes : List Nat := List.replicate 32 0xff

/-- The fixed byte sequence of the concrete scenario:
`a5 01 02 03 26 20 01 21 5820 <32 × ff> 22 5820 <32 × ff>`. -/
def c7Bytes : List Nat :=
  [0xa5, 0x01, 0x02, 0x03, 0x26, 0x20, 0x01, 0x21, 0x58, 0x20] ++ ffBytes ++
    [0x22, 0x58, 0x20] ++ ffBytes

/-- C7: serializing the P256 key with x = y = 32 bytes of 0xFF produces
exactly the fixed byte sequence (a 5-entry map with kty = 2, alg = -7,
crv = 1, x, y in that order), and deserializing that sequence as a
P256 key returns the same key. -/
theorem claim_C7_concrete_p256 :
    (P256PublicKey.toRaw { x := ffBytes, y := ffBytes }).serializeBytes = c7Bytes ∧
    P256PublicKey.deserializeBytes c7Bytes = .ok { x := ffBytes, y := ffBytes } := by
  constructor
  · decide
  · decide


/-- C1: for each typed key variant, deserializing the bytes produced by
serializing a value yields exactly that value (the Totp decode and the
byte tokenizer are the spec-modelled components described above). -/
theorem claim_C1_round_trip (x y : List Nat) (hx : x.length = 32) (hy : y.length = 32)
    (hbx : ∀ b ∈ x, b < 256) (hby : ∀ b ∈ y, b < 256) :
    P256PublicKey.deserializeBytes
        (RawEcPublicKey.serializeBytes (P256PublicKey.toRaw { x := x, y := y })) =
      .ok { x := x, y := y } ∧
    EcdhEsHkdf256PublicKey.deserializeBytes
        (RawEcPublicKey.serializeBytes (EcdhEsHkdf256PublicKey.toRaw { x := x, y := y })) =
      .ok { x := x, y := y } ∧
    Ed25519PublicKey.deserializeBytes
        (RawEcPublicKey.serializeBytes (Ed25519PublicKey.toRaw { x := x })) =
      .ok { x := x } ∧
    TotpPublicKey.deserializeBytesSpec
        (RawEcPublicKey.serializeBytes (TotpPublicKey.toRaw {})) = .ok {} := by
  refine ⟨?_, ?_, ?_, ?_⟩
  · have hent : (P256PublicKey.toRaw { x := x, y := y }).serializeEntries =
        [(Value.int 1, Value.int 2), (Value.int 3, Value.int (-7)),
          (Value.int (-1), Value.int 1), (Value.int (-2), Value.bytes x),
          (Value.int (-3), Value.bytes y)] := rfl
    have hwf : ∀ e ∈ (P256PublicKey.toRaw { x := x, y := y }).serializeEntries,
        ValueWF e.1 ∧ ValueWF e.2 := by
      rw [hent]
      intro e he
      simp only [List.mem_cons, List.not_mem_nil, or_false] at he
      rcases he with rfl | rfl | rfl | rfl | rfl <;>
        constructor <;> simp [ValueWF] <;> omega
    have hparse := cborParseMap_serializeBytes _ hwf
    rw [hent] at hparse
    have hv := visit_map_ec2 (Value.int (-7)) Alg.Es256 (by decide) x y
      (by omega) (by omega)
    simp only [P256PublicKey.deserializeBytes, hparse, andThen_ok,
      P256PublicKey.deserialize, hv]
    rfl
  · have hent : (EcdhEsHkdf256PublicKey.toRaw { x := x, y := y }).serializeEntries =
        [(Value.int 1, Value.int 2), (Value.int 3, Value.int (-25)),
          (Value.int (-1), Value.int 1), (Value.int (-2), Value.bytes x),
          (Value.int (-3), Value.bytes y)] := rfl
    have hwf : ∀ e ∈ (EcdhEsHkdf256PublicKey.toRaw { x := x, y := y }).serializeEntries,
        ValueWF e.1 ∧ ValueWF e.2 := by
      rw [hent]
      intro e he
      simp only [List.mem_cons, List.not_mem_nil, or_false] at he
      rcases he with rfl | rfl | rfl | rfl | rfl <;>
        constructor <;> simp [ValueWF] <;> omega
    have hparse := cborParseMap_serializeBytes _ hwf
    rw [hent] at hparse
    have hv := visit_map_ec2 (Value.int (-25)) Alg.EcdhEsHkdf256 (by decide) x y
      (by omega) (by omega)
    simp only [EcdhEsHkdf256PublicKey.deserializeBytes, hparse, andThen_ok,
      EcdhEsHkdf256PublicKey.deserialize, hv]
    rfl
  · have hent : (Ed25519PublicKey.toRaw { x := x }).serializeEntries =
        [(Value.int 1, Value.int 1), (Value.int 3, Value.int (-8)),
          (Value.int (-1), Value.int 6), (Value.int (-2), Value.bytes x)] := rfl
    have hwf : ∀ e ∈ (Ed25519PublicKey.toRaw { x := x }).serializeEntries,
        ValueWF e.1 ∧ ValueWF e.2 := by
      rw [hent]
      intro e he
      simp only [List.mem_cons, List.not_mem_nil, or_false] at he
      rcases he with rfl | rfl | rfl | rfl <;>
        constructor <;> simp [ValueWF] <;> omega
    have hparse := cborParseMap_serializeBytes _ hwf
    rw [hent] at hparse
    have hv := visit_map_okp (Value.int (-8)) Alg.EdDsa (by decide) x (by omega)
    simp only [Ed25519PublicKey.deserializeBytes, hparse, andThen_ok,
      Ed25519PublicKey.deserialize, hv]
    rfl
  · have hent : (TotpPublicKey.toRaw {}).serializeEntries =
        [(Value.int 1, Value.int 4), (Value.int 3, Value.int (-9))] := rfl
    have hwf : ∀ e ∈ (TotpPublicKey.toRaw {}).serializeEntries,
        ValueWF e.1 ∧ ValueWF e.2 := by
      rw [hent]
      intro e he
      simp only [List.mem_cons, List.not_mem_nil, or_false] at he
      rcases he with rfl | rfl <;> exact ⟨by simp [ValueWF], by simp [ValueWF]⟩
    have hparse := cborParseMap_serializeBytes _ hwf
    rw [hent] at hparse
    have hv := visit_map_sym (Value.int (-9)) Alg.Totp (by decide)
    simp only [TotpPublicKey.deserializeBytesSpec, hparse, andThen_ok,
      TotpPublicKey.deserializeSpec, hv]
    rfl

/-- C8: a canonically-ordered four-entry map with kty = 2 (Ec2),
crv = 1 (P256), x and y, and no alg entry deserializes successfully both
as a P256 key and as an ECDH-ES+HKDF-256 key, yielding the same
coordinates — the two Ec2 variants are indistinguishable on decode when
the optional alg field is absent. -/
theorem claim_C8_ec2_alg_absent_ambiguity (x y : List Nat)
    (hx : x.length = 32) (hy : y.length = 32) :
    P256PublicKey.deserialize
        [(Value.int 1, Value.int 2), (Value.int (-1), Value.int 1),
          (Value.int (-2), Value.bytes x), (Value.int (-3), Value.bytes y)] =
      .ok { x := x, y := y } ∧
    EcdhEsHkdf256PublicKey.deserialize
        [(Value.int 1, Value.int 2), (Value.int (-1), Value.int 1),
          (Value.int (-2), Value.bytes x), (Value.int (-3), Value.bytes y)] =
      .ok { x := x, y := y } := by
  have hv := visit_map_ec2_noalg x y (by omega) (by omega)
  constructor
  · simp only [P256PublicKey.deserialize, hv]
    rfl
  · simp only [EcdhEsHkdf256PublicKey.deserialize, hv]
    rfl


/-- A raw-parse failure makes the typed P256 decode fail. -/
theorem p256_deserialize_failed (p : List (Value × Value))
    (h : decFailed (RawEcPublicKey.visit_map p) = true) :
    decFailed (P256PublicKey.deserialize p) = true := by
  cases hv : RawEcPublicKey.visit_map p with
  | ok r => rw [hv] at h; simp at h
  | error e => simp [P256PublicKey.deserialize, hv]

/-- A raw-parse failure makes the typed ECDH decode fail. -/
theorem ecdh_deserialize_failed (p : List (Value × Value))
    (h : decFailed (RawEcPublicKey.visit_map p) = true) :
    decFailed (EcdhEsHkdf256PublicKey.deserialize p) = true := by
  cases hv : RawEcPublicKey.visit_map p with
  | ok r => rw [hv] at h; simp at h
  | error e => simp [EcdhEsHkdf256PublicKey.deserialize, hv]

/-- A raw-parse failure makes the typed Ed25519 decode fail. -/
theorem ed25519_deserialize_failed (p : List (Value × Value))
    (h : decFailed (RawEcPublicKey.visit_map p) = true) :
    decFailed (Ed25519PublicKey.deserialize p) = true := by
  cases hv : RawEcPublicKey.visit_map p with
  | ok r => rw [hv] at h; simp at h
  | error e => simp [Ed25519PublicKey.deserialize, hv]

/-- A raw-parse failure makes the (spec-modelled) Totp decode fail. -/
theorem totp_deserializeSpec_failed (p : List (Value × Value))
    (h : decFailed (RawEcPublicKey.visit_map p) = true) :
    decFailed (TotpPublicKey.deserializeSpec p) = true := by
  cases hv : RawEcPublicKey.visit_map p with
  | ok r => rw [hv] at h; simp at h
  | error e => simp [TotpPublicKey.deserializeSpec, hv]

/-- Reading an integer value as an `Alg` either produces the enumerator
with that exact discriminant, or fails. -/
theorem deAlg_int_cases (m : Int) :
    deAlg (Value.int m) = .ok Alg.Es256 ∧ m = -7 ∨
    deAlg (Value.int m) = .ok Alg.EdDsa ∧ m = -8 ∨
    deAlg (Value.int m) = .ok Alg.Totp ∧ m = -9 ∨
    deAlg (Value.int m) = .ok Alg.EcdhEsHkdf256 ∧ m = -25 ∨
    (∃ e, deAlg (Value.int m) = .error e) := by
  by_cases h7 : m = -7
  · subst h7; exact Or.inl ⟨by decide, rfl⟩
  by_cases h8 : m = -8
  · subst h8; exact Or.inr (Or.inl ⟨by decide, rfl⟩)
  by_cases h9 : m = -9
  · subst h9; exact Or.inr (Or.inr (Or.inl ⟨by decide, rfl⟩))
  by_cases h25 : m = -25
  · subst h25; exact Or.inr (Or.inr (Or.inr (Or.inl ⟨by decide, rfl⟩)))
  refine Or.inr (Or.inr (Or.inr (Or.inr ?_)))
  by_cases hr : -128 ≤ m ∧ m ≤ 127
  · exact ⟨DeError.invalidEnum m, by simp [deAlg, readI8, hr, h7, h8, h9, h25]⟩
  · exact ⟨DeError.typeError, by simp [deAlg, readI8, hr]⟩

/-- An alg value that fails to decode fails the whole Ec2 raw parse. -/
theorem visit_map_ec2_alg_error (va : Value) (e : DeError) (hae : deAlg va = .error e)
    (x y : List Nat) :
    RawEcPublicKey.visit_map
      [(Value.int 1, Value.int 2), (Value.int 3, va), (Value.int (-1), Value.int 1),
        (Value.int (-2), Value.bytes x), (Value.int (-3), Value.bytes y)] =
      .error e := by
  simp [RawEcPublicKey.visit_map, consumeSlot, next_key_one, next_key_three,
    deKty, hae, readI8, Label.tryFrom]

/-- An alg value that fails to decode fails the whole Okp raw parse. -/
theorem visit_map_okp_alg_error (va : Value) (e : DeError) (hae : deAlg va = .error e)
    (x : List Nat) :
    RawEcPublicKey.visit_map
      [(Value.int 1, Value.int 1), (Value.int 3, va), (Value.int (-1), Value.int 6),
        (Value.int (-2), Value.bytes x)] = .error e := by
  simp [RawEcPublicKey.visit_map, consumeSlot, next_key_one, next_key_three,
    deKty, hae, readI8, Label.tryFrom]

/-- An alg value that fails to decode fails the whole Symmetric raw parse. -/
theorem visit_map_sym_alg_error (va : Value) (e : DeError) (hae : deAlg va = .error e) :
    RawEcPublicKey.visit_map [(Value.int 1, Value.int 4), (Value.int 3, va)] =
      .error e := by
  simp [RawEcPublicKey.visit_map, consumeSlot, next_key_one, next_key_three,
    deKty, hae, readI8, Label.tryFrom]

/-- The encoding with the alg entry (label 3) entirely removed. -/
def removeAlgEntry (es : List (Value × Value)) : List (Value × Value) :=
  es.filter fun e => e.1 != Value.int Label.Alg.toInt

/-- The encoding with the alg entry's value replaced by the integer `m`. -/
def replaceAlgValue (m : Int) (es : List (Value × Value)) : List (Value × Value) :=
  es.map fun e => if e.1 = Value.int Label.Alg.toInt then (e.1, Value.int m) else e


/-- C4: for every typed key variant, the encoding with the alg entry
removed still decodes to the same value, while replacing the alg value by
any integer other than the variant's required alg makes decoding fail
(the Totp decode is the spec-modelled component). -/
theorem claim_C4_optional_alg (x y : List Nat) (hx : x.length = 32) (hy : y.length = 32) :
    (P256PublicKey.deserialize
        (removeAlgEntry ((P256PublicKey.toRaw { x := x, y := y }).serializeEntries)) =
          .ok { x := x, y := y } ∧
      ∀ m : Int, m ≠ Alg.Es256.toInt →
        decFailed (P256PublicKey.deserialize
          (replaceAlgValue m ((P256PublicKey.toRaw { x := x, y := y }).serializeEntries))) =
          true) ∧
    (EcdhEsHkdf256PublicKey.deserialize
        (removeAlgEntry
          ((EcdhEsHkdf256PublicKey.toRaw { x := x, y := y }).serializeEntries)) =
          .ok { x := x, y := y } ∧
      ∀ m : Int, m ≠ Alg.EcdhEsHkdf256.toInt →
        decFailed (EcdhEsHkdf256PublicKey.deserialize
          (replaceAlgValue m
            ((EcdhEsHkdf256PublicKey.toRaw { x := x, y := y }).serializeEntries))) = true) ∧
    (Ed25519PublicKey.deserialize
        (removeAlgEntry ((Ed25519PublicKey.toRaw { x := x }).serializeEntries)) =
          .ok { x := x } ∧
      ∀ m : Int, m ≠ Alg.EdDsa.toInt →
        decFailed (Ed25519PublicKey.deserialize
          (replaceAlgValue m ((Ed25519PublicKey.toRaw { x := x }).serializeEntries))) =
          true) ∧
    (TotpPublicKey.deserializeSpec
        (removeAlgEntry ((TotpPublicKey.toRaw {}).serializeEntries)) = .ok {} ∧
      ∀ m : Int, m ≠ Alg.Totp.toInt →
        decFailed (TotpPublicKey.deserializeSpec
          (replaceAlgValue m ((TotpPublicKey.toRaw {}).serializeEntries))) = true) := by
  have hx32 : x.length ≤ 32 := by omega
  have hy32 : y.length ≤ 32 := by omega
  refine ⟨⟨?_, ?_⟩, ⟨?_, ?_⟩, ⟨?_, ?_⟩, ⟨?_, ?_⟩⟩
  · have h1 : removeAlgEntry ((P256PublicKey.toRaw { x := x, y := y }).serializeEntries) =
        [(Value.int 1, Value.int 2), (Value.int (-1), Value.int 1),
          (Value.int (-2), Value.bytes x), (Value.int (-3), Value.bytes y)] := rfl
    rw [h1]
    simp only [P256PublicKey.deserialize, visit_map_ec2_noalg x y hx32 hy32, andThen_ok]
    rfl
  · intro m hm
    have h2 : replaceAlgValue m ((P256PublicKey.toRaw { x := x, y := y }).serializeEntries) =
        [(Value.int 1, Value.int 2), (Value.int 3, Value.int m),
          (Value.int (-1), Value.int 1), (Value.int (-2), Value.bytes x),
          (Value.int (-3), Value.bytes y)] := rfl
    rw [h2]
    rcases deAlg_int_cases m with ⟨ha, rfl⟩ | ⟨ha, rfl⟩ | ⟨ha, rfl⟩ | ⟨ha, rfl⟩ | ⟨e, hae⟩
    · exact absurd rfl hm
    · simp only [P256PublicKey.deserialize, visit_map_ec2 _ _ ha x y hx32 hy32,
        andThen_ok]
      rfl
    · simp only [P256PublicKey.deserialize, visit_map_ec2 _ _ ha x y hx32 hy32,
        andThen_ok]
      rfl
    · simp only [P256PublicKey.deserialize, visit_map_ec2 _ _ ha x y hx32 hy32,
        andThen_ok]
      rfl
    · exact p256_deserialize_failed _
        (by rw [visit_map_ec2_alg_error _ _ hae x y]; rfl)
  · have h1 : removeAlgEntry
        ((EcdhEsHkdf256PublicKey.toRaw { x := x, y := y }).serializeEntries) =
        [(Value.int 1, Value.int 2), (Value.int (-1), Value.int 1),
          (Value.int (-2), Value.bytes x), (Value.int (-3), Value.bytes y)] := rfl
    rw [h1]
    simp only [EcdhEsHkdf256PublicKey.deserialize, visit_map_ec2_noalg x y hx32 hy32,
      andThen_ok]
    rfl
  · intro m hm
    have h2 : replaceAlgValue m
        ((EcdhEsHkdf256PublicKey.toRaw { x := x, y := y }).serializeEntries) =
        [(Value.int 1, Value.int 2), (Value.int 3, Value.int m),
          (Value.int (-1), Value.int 1), (Value.int (-2), Value.bytes x),
          (Value.int (-3), Value.bytes y)] := rfl
    rw [h2]
    rcases deAlg_int_cases m with ⟨ha, rfl⟩ | ⟨ha, rfl⟩ | ⟨ha, rfl⟩ | ⟨ha, rfl⟩ | ⟨e, hae⟩
    · simp only [EcdhEsHkdf256PublicKey.deserialize,
        visit_map_ec2 _ _ ha x y hx32 hy32, andThen_ok]
      rfl
    · simp only [EcdhEsHkdf256PublicKey.deserialize,
        visit_map_ec2 _ _ ha x y hx32 hy32, andThen_ok]
      rfl
    · simp only [EcdhEsHkdf256PublicKey.deserialize,
        visit_map_ec2 _ _ ha x y hx32 hy32, andThen_ok]
      rfl
    · exact absurd rfl hm
    · exact ecdh_deserialize_failed _
        (by rw [visit_map_ec2_alg_error _ _ hae x y]; rfl)
  · have h1 : removeAlgEntry ((Ed25519PublicKey.toRaw { x := x }).serializeEntries) =
        [(Value.int 1, Value.int 1), (Value.int (-1), Value.int 6),
          (Value.int (-2), Value.bytes x)] := rfl
    rw [h1]
    simp only [Ed25519PublicKey.deserialize, visit_map_okp_noalg x hx32, andThen_ok]
    rfl
  · intro m hm
    have h2 : replaceAlgValue m ((Ed25519PublicKey.toRaw { x := x }).serializeEntries) =
        [(Value.int 1, Value.int 1), (Value.int 3, Value.int m),
          (Value.int (-1), Value.int 6), (Value.int (-2), Value.bytes x)] := rfl
    rw [h2]
    rcases deAlg_int_cases m with ⟨ha, rfl⟩ | ⟨ha, rfl⟩ | ⟨ha, rfl⟩ | ⟨ha, rfl⟩ | ⟨e, hae⟩
    · simp only [Ed25519PublicKey.deserialize, visit_map_okp _ _ ha x hx32, andThen_ok]
      rfl
    · exact absurd rfl hm
    · simp only [Ed25519PublicKey.deserialize, visit_map_okp _ _ ha x hx32, andThen_ok]
      rfl
    · simp only [Ed25519PublicKey.deserialize, visit_map_okp _ _ ha x hx32, andThen_ok]
      rfl
    · exact ed25519_deserialize_failed _
        (by rw [visit_map_okp_alg_error _ _ hae x]; rfl)
  · have h1 : removeAlgEntry ((TotpPublicKey.toRaw {}).serializeEntries) =
        [(Value.int 1, Value.int 4)] := rfl
    rw [h1]
    simp only [TotpPublicKey.deserializeSpec, visit_map_sym_noalg, andThen_ok]
    rfl
  · intro m hm
    have h2 : replaceAlgValue m ((TotpPublicKey.toRaw {}).serializeEntries) =
        [(Value.int 1, Value.int 4), (Value.int 3, Value.int m)] := rfl
    rw [h2]
    rcases deAlg_int_cases m with ⟨ha, rfl⟩ | ⟨ha, rfl⟩ | ⟨ha, rfl⟩ | ⟨ha, rfl⟩ | ⟨e, hae⟩
    · simp only [TotpPublicKey.deserializeSpec, visit_map_sym _ _ ha, andThen_ok]
      rfl
    · simp only [TotpPublicKey.deserializeSpec, visit_map_sym _ _ ha, andThen_ok]
      rfl
    · exact absurd rfl hm
    · simp only [TotpPublicKey.deserializeSpec, visit_map_sym _ _ ha, andThen_ok]
      rfl
    · exact totp_deserializeSpec_failed _
        (by rw [visit_map_sym_alg_error _ _ hae]; rfl)


/-- C5 counterexample: the claim quantifies over arbitrary integer keys
outside the label set, but the trailing entry with key 128 — an integer
outside the label set — makes the decode fail instead of being ignored,
because the decoder reads every key it reaches as an `i8`. -/
theorem claim_C5_counterexample :
    decFailed (P256PublicKey.deserialize
      ((P256PublicKey.toRaw { x := ffBytes, y := ffBytes }).serializeEntries ++
        [(Value.int 128, Value.int 0)])) = true := by
  decide

/-- C5 (amended): appending trailing entries whose keys are 8-bit signed
integers (in [-128, 127]) outside the label set does not change the
decode result of a complete canonically-ordered field set. -/
theorem claim_C5_trailing_unknown_i8 (x y : List Nat)
    (hx : x.length = 32) (hy : y.length = 32)
    (t : List (Value × Value))
    (ht : ∀ e ∈ t, ∃ n : Int, e.1 = Value.int n ∧ -128 ≤ n ∧ n ≤ 127 ∧
      Label.tryFrom n = Option.none) :
    P256PublicKey.deserialize
        ((P256PublicKey.toRaw { x := x, y := y }).serializeEntries ++ t) =
      .ok { x := x, y := y } ∧
    EcdhEsHkdf256PublicKey.deserialize
        ((EcdhEsHkdf256PublicKey.toRaw { x := x, y := y }).serializeEntries ++ t) =
      .ok { x := x, y := y } ∧
    Ed25519PublicKey.deserialize
        ((Ed25519PublicKey.toRaw { x := x }).serializeEntries ++ t) = .ok { x := x } ∧
    TotpPublicKey.deserializeSpec ((TotpPublicKey.toRaw {}).serializeEntries ++ t) =
      .ok {} := by
  have hx32 : x.length ≤ 32 := by omega
  have hy32 : y.length ≤ 32 := by omega
  have hnk : ∃ kt, next_key t = .ok kt ∧ ∀ l : Label, kt ≠ MapKey.label l := by
    cases t with
    | nil => exact ⟨MapKey.none, rfl, fun l h => by cases h⟩
    | cons e tt =>
      obtain ⟨n, he1, hlo, hhi, htf⟩ := ht e (List.mem_cons_self e tt)
      rcases e with ⟨ek, ev⟩
      refine ⟨MapKey.unknown n, ?_, fun l h => by cases h⟩
      simp only at he1
      subst he1
      simp [next_key, readI8, hlo, hhi, htf]
  obtain ⟨kt, hket, hkl⟩ := hnk
  refine ⟨?_, ?_, ?_, ?_⟩
  · have hv := visit_map_ec2_trailing (Value.int (-7)) Alg.Es256 (by decide) x y
      hx32 hy32 t kt hket hkl
    have hent : (P256PublicKey.toRaw { x := x, y := y }).serializeEntries =
        [(Value.int 1, Value.int 2), (Value.int 3, Value.int (-7)),
          (Value.int (-1), Value.int 1), (Value.int (-2), Value.bytes x),
          (Value.int (-3), Value.bytes y)] := rfl
    rw [hent]
    simp only [P256PublicKey.deserialize, hv, andThen_ok]
    rfl
  · have hv := visit_map_ec2_trailing (Value.int (-25)) Alg.EcdhEsHkdf256 (by decide)
      x y hx32 hy32 t kt hket hkl
    have hent : (EcdhEsHkdf256PublicKey.toRaw { x := x, y := y }).serializeEntries =
        [(Value.int 1, Value.int 2), (Value.int 3, Value.int (-25)),
          (Value.int (-1), Value.int 1), (Value.int (-2), Value.bytes x),
          (Value.int (-3), Value.bytes y)] := rfl
    rw [hent]
    simp only [EcdhEsHkdf256PublicKey.deserialize, hv, andThen_ok]
    rfl
  · have hv := visit_map_okp_trailing (Value.int (-8)) Alg.EdDsa (by decide) x hx32
      t kt hket hkl
    have hent : (Ed25519PublicKey.toRaw { x := x }).serializeEntries =
        [(Value.int 1, Value.int 1), (Value.int 3, Value.int (-8)),
          (Value.int (-1), Value.int 6), (Value.int (-2), Value.bytes x)] := rfl
    rw [hent]
    simp only [Ed25519PublicKey.deserialize, hv, andThen_ok]
    rfl
  · have hv := visit_map_sym_trailing (Value.int (-9)) Alg.Totp (by decide)
      t kt hket hkl
    have hent : (TotpPublicKey.toRaw {}).serializeEntries =
        [(Value.int 1, Value.int 4), (Value.int 3, Value.int (-9))] := rfl
    rw [hent]
    simp only [TotpPublicKey.deserializeSpec, hv, andThen_ok]
    rfl

/-- C9 counterexample: a map containing the key 128 — not an 8-bit signed
integer — can still deserialize successfully: the decoder stops examining
keys after the first unrecognized trailing key (here 42), so the non-i8
key behind it is never read, contradicting the claim that such a key
anywhere in the map causes an error. -/
theorem claim_C9_counterexample :
    P256PublicKey.deserialize
        ((P256PublicKey.toRaw { x := ffBytes, y := ffBytes }).serializeEntries ++
          [(Value.int 42, Value.int 0), (Value.int 128, Value.int 0)]) =
      .ok { x := ffBytes, y := ffBytes } := by
  decide

/-- C9 (amended): every map key the decoder actually reads is read as an
`i8`: a key that is not an integer in [-128, 127] (a larger integer, a
byte string or a text key) causes a decode error when it is the first key
of the map, or when it immediately follows the consumed field set —
entries after the first unrecognized trailing key are discarded unread. -/
theorem claim_C9_non_i8_key (x y : List Nat)
    (hx : x.length = 32) (hy : y.length = 32) (kv w : Value)
    (hkv : ∀ n : Int, kv = Value.int n → n < -128 ∨ 127 < n) :
    (∀ rest : List (Value × Value),
      RawEcPublicKey.visit_map ((kv, w) :: rest) = .error DeError.typeError) ∧
    (∀ rest : List (Value × Value),
      decFailed (P256PublicKey.deserialize
        ((P256PublicKey.toRaw { x := x, y := y }).serializeEntries ++
          (kv, w) :: rest)) = true) := by
  have hx32 : x.length ≤ 32 := by omega
  have hy32 : y.length ≤ 32 := by omega
  have hr : readI8 kv = .error .typeError := by
    cases kv with
    | int n =>
      have := hkv n rfl
      simp only [readI8]
      rw [if_neg (by omega)]
    | bytes b => rfl
    | text s => rfl
  have hnk : ∀ rest : List (Value × Value),
      next_key ((kv, w) :: rest) = .error DeError.typeError := by
    intro rest
    simp [next_key, hr]
  constructor
  · intro rest
    simp [RawEcPublicKey.visit_map, hnk]
  · intro rest
    apply p256_deserialize_failed
    have hent : (P256PublicKey.toRaw { x := x, y := y }).serializeEntries =
        [(Value.int 1, Value.int 2), (Value.int 3, Value.int (-7)),
          (Value.int (-1), Value.int 1), (Value.int (-2), Value.bytes x),
          (Value.int (-3), Value.bytes y)] := rfl
    rw [hent]
    simp [RawEcPublicKey.visit_map, consumeSlot, next_key_one, next_key_three,
      next_key_neg_one, next_key_neg_two, next_key_neg_three, hnk, deKty, deAlg,
      deCrv, deBytes32, hx32, hy32, readI8, Label.tryFrom]


/-- C2: for each typed key, only the canonical permutation of its encoded
field entries decodes (to the original key); every non-identity
permutation fails, and a recognized label appended after a label that
canonically follows it (a duplicate or out-of-order field) also fails
(the Totp decode is the spec-modelled component). -/
theorem claim_C2_canonical_order_only (x y : List Nat)
    (hx : x.length = 32) (hy : y.length = 32) :
    (P256PublicKey.deserialize ((P256PublicKey.toRaw { x := x, y := y }).serializeEntries) =
        .ok { x := x, y := y } ∧
      (∀ p, List.Perm p ((P256PublicKey.toRaw { x := x, y := y }).serializeEntries) →
        p ≠ (P256PublicKey.toRaw { x := x, y := y }).serializeEntries →
        decFailed (P256PublicKey.deserialize p) = true) ∧
      ∀ (l : Label) (w : Value),
        decFailed (P256PublicKey.deserialize
          ((P256PublicKey.toRaw { x := x, y := y }).serializeEntries ++
            [(Value.int l.toInt, w)])) = true) ∧
    (EcdhEsHkdf256PublicKey.deserialize
        ((EcdhEsHkdf256PublicKey.toRaw { x := x, y := y }).serializeEntries) =
        .ok { x := x, y := y } ∧
      (∀ p, List.Perm p ((EcdhEsHkdf256PublicKey.toRaw { x := x, y := y }).serializeEntries) →
        p ≠ (EcdhEsHkdf256PublicKey.toRaw { x := x, y := y }).serializeEntries →
        decFailed (EcdhEsHkdf256PublicKey.deserialize p) = true) ∧
      ∀ (l : Label) (w : Value),
        decFailed (EcdhEsHkdf256PublicKey.deserialize
          ((EcdhEsHkdf256PublicKey.toRaw { x := x, y := y }).serializeEntries ++
            [(Value.int l.toInt, w)])) = true) ∧
    (Ed25519PublicKey.deserialize ((Ed25519PublicKey.toRaw { x := x }).serializeEntries) =
        .ok { x := x } ∧
      (∀ p, List.Perm p ((Ed25519PublicKey.toRaw { x := x }).serializeEntries) →
        p ≠ (Ed25519PublicKey.toRaw { x := x }).serializeEntries →
        decFailed (Ed25519PublicKey.deserialize p) = true) ∧
      ∀ (l : Label) (w : Value), l ≠ Label.Y →
        decFailed (Ed25519PublicKey.deserialize
          ((Ed25519PublicKey.toRaw { x := x }).serializeEntries ++
            [(Value.int l.toInt, w)])) = true) ∧
    (TotpPublicKey.deserializeSpec ((TotpPublicKey.toRaw {}).serializeEntries) =
        .ok {} ∧
      (∀ p, List.Perm p ((TotpPublicKey.toRaw {}).serializeEntries) →
        p ≠ (TotpPublicKey.toRaw {}).serializeEntries →
        decFailed (TotpPublicKey.deserializeSpec p) = true) ∧
      ∀ (l : Label) (w : Value), l = Label.Kty ∨ l = Label.Alg →
        decFailed (TotpPublicKey.deserializeSpec
          ((TotpPublicKey.toRaw {}).serializeEntries ++
            [(Value.int l.toInt, w)])) = true) := by
  have hx32 : x.length ≤ 32 := by omega
  have hy32 : y.length ≤ 32 := by omega
  have hbx : deBytes32 (Value.bytes x) = .ok x := by simp [deBytes32, hx32]
  have hby : deBytes32 (Value.bytes y) = .ok y := by simp [deBytes32, hy32]
  have hentP : (P256PublicKey.toRaw { x := x, y := y }).serializeEntries =
      [(Value.int 1, Value.int 2), (Value.int 3, Value.int (-7)),
        (Value.int (-1), Value.int 1), (Value.int (-2), Value.bytes x),
        (Value.int (-3), Value.bytes y)] := rfl
  have hentE : (EcdhEsHkdf256PublicKey.toRaw { x := x, y := y }).serializeEntries =
      [(Value.int 1, Value.int 2), (Value.int 3, Value.int (-25)),
        (Value.int (-1), Value.int 1), (Value.int (-2), Value.bytes x),
        (Value.int (-3), Value.bytes y)] := rfl
  have hentD : (Ed25519PublicKey.toRaw { x := x }).serializeEntries =
      [(Value.int 1, Value.int 1), (Value.int 3, Value.int (-8)),
        (Value.int (-1), Value.int 6), (Value.int (-2), Value.bytes x)] := rfl
  have hentT : (TotpPublicKey.toRaw {}).serializeEntries =
      [(Value.int 1, Value.int 4), (Value.int 3, Value.int (-9))] := rfl
  refine ⟨⟨?_, ?_, ?_⟩, ⟨?_, ?_, ?_⟩, ⟨?_, ?_, ?_⟩, ⟨?_, ?_, ?_⟩⟩
  · rw [hentP]
    simp only [P256PublicKey.deserialize,
      visit_map_ec2 (Value.int (-7)) Alg.Es256 (by decide) x y hx32 hy32, andThen_ok]
    rfl
  · intro p hp hne
    rw [hentP] at hp hne
    exact p256_deserialize_failed p
      (visit_map_ec2_perm_fail (Value.int 2) (Value.int (-7)) (Value.int 1)
        (Value.bytes x) (Value.bytes y) Kty.Ec2 Alg.Es256 Crv.P256 x y
        (by decide) (by decide) (by decide) hbx hby p hp hne)
  · intro l w
    rw [hentP]
    exact p256_deserialize_failed _
      (visit_map_ec2_append_label (Value.int (-7)) Alg.Es256 (by decide) x y
        hx32 hy32 l w [])
  · rw [hentE]
    simp only [EcdhEsHkdf256PublicKey.deserialize,
      visit_map_ec2 (Value.int (-25)) Alg.EcdhEsHkdf256 (by decide) x y hx32 hy32,
      andThen_ok]
    rfl
  · intro p hp hne
    rw [hentE] at hp hne
    exact ecdh_deserialize_failed p
      (visit_map_ec2_perm_fail (Value.int 2) (Value.int (-25)) (Value.int 1)
        (Value.bytes x) (Value.bytes y) Kty.Ec2 Alg.EcdhEsHkdf256 Crv.P256 x y
        (by decide) (by decide) (by decide) hbx hby p hp hne)
  · intro l w
    rw [hentE]
    exact ecdh_deserialize_failed _
      (visit_map_ec2_append_label (Value.int (-25)) Alg.EcdhEsHkdf256 (by decide) x y
        hx32 hy32 l w [])
  · rw [hentD]
    simp only [Ed25519PublicKey.deserialize,
      visit_map_okp (Value.int (-8)) Alg.EdDsa (by decide) x hx32, andThen_ok]
    rfl
  · intro p hp hne
    rw [hentD] at hp hne
    exact ed25519_deserialize_failed p
      (visit_map_okp_perm_fail (Value.int 1) (Value.int (-8)) (Value.int 6)
        (Value.bytes x) Kty.Okp Alg.EdDsa Crv.Ed25519 x
        (by decide) (by decide) (by decide) hbx p hp hne)
  · intro l w hl
    rw [hentD]
    exact ed25519_deserialize_failed _
      (visit_map_okp_append_label (Value.int (-8)) Alg.EdDsa (by decide) x hx32
        l hl w [])
  · rw [hentT]
    simp only [TotpPublicKey.deserializeSpec,
      visit_map_sym (Value.int (-9)) Alg.Totp (by decide), andThen_ok]
    rfl
  · intro p hp hne
    rw [hentT] at hp hne
    exact totp_deserializeSpec_failed p
      (visit_map_sym_perm_fail (Value.int 4) (Value.int (-9)) Kty.Symmetric Alg.Totp
        (by decide) (by decide) p hp hne)
  · intro l w hl
    rw [hentT]
    exact totp_deserializeSpec_failed _
      (visit_map_sym_append_label (Value.int (-9)) Alg.Totp (by decide) l hl w [])


/-- Witness for C1 at x = y = 32 bytes of 0xFF. -/
theorem claim_C1_round_trip_witness :
    ffBytes.length = 32 ∧ (∀ b ∈ ffBytes, b < 256) ∧
    P256PublicKey.deserializeBytes
        (RawEcPublicKey.serializeBytes (P256PublicKey.toRaw { x := ffBytes, y := ffBytes })) =
      .ok { x := ffBytes, y := ffBytes } :=
  ⟨by decide, by decide,
    (claim_C1_round_trip ffBytes ffBytes (by decide) (by decide) (by decide)
      (by decide)).1⟩

/-- Witness for C2 at x = y = 32 bytes of 0xFF: the permutation that
swaps the kty and alg entries is rejected. -/
theorem claim_C2_canonical_order_only_witness :
    ffBytes.length = 32 ∧
    decFailed (P256PublicKey.deserialize
      [(Value.int 3, Value.int (-7)), (Value.int 1, Value.int 2),
        (Value.int (-1), Value.int 1), (Value.int (-2), Value.bytes ffBytes),
        (Value.int (-3), Value.bytes ffBytes)]) = true :=
  ⟨by decide,
    (claim_C2_canonical_order_only ffBytes ffBytes (by decide) (by decide)).1.2.1
      [(Value.int 3, Value.int (-7)), (Value.int 1, Value.int 2),
        (Value.int (-1), Value.int 1), (Value.int (-2), Value.bytes ffBytes),
        (Value.int (-3), Value.bytes ffBytes)]
      (by decide) (by decide)⟩

/-- Witness for C4 at x = y = 32 bytes of 0xFF: the alg-free encoding
still decodes. -/
theorem claim_C4_optional_alg_witness :
    ffBytes.length = 32 ∧
    P256PublicKey.deserialize
        (removeAlgEntry ((P256PublicKey.toRaw { x := ffBytes, y := ffBytes }).serializeEntries)) =
      .ok { x := ffBytes, y := ffBytes } :=
  ⟨by decide,
    (claim_C4_optional_alg ffBytes ffBytes (by decide) (by decide)).1.1⟩

/-- Witness for the amended C5 at x = y = 32 bytes of 0xFF with the
trailing unrecognized entry 42 : 0. -/
theorem claim_C5_trailing_unknown_i8_witness :
    ffBytes.length = 32 ∧
    P256PublicKey.deserialize
        ((P256PublicKey.toRaw { x := ffBytes, y := ffBytes }).serializeEntries ++
          [(Value.int 42, Value.int 0)]) =
      .ok { x := ffBytes, y := ffBytes } :=
  ⟨by decide,
    (claim_C5_trailing_unknown_i8 ffBytes ffBytes (by decide) (by decide)
      [(Value.int 42, Value.int 0)]
      (by
        intro e he
        simp only [List.mem_cons, List.not_mem_nil, or_false] at he
        rcases he with rfl
        exact ⟨42, rfl, by decide, by decide, by decide⟩)).1⟩

/-- Witness for the amended C9: the single-entry map with the non-i8 key
128 fails to parse. -/
theorem claim_C9_non_i8_key_witness :
    ffBytes.length = 32 ∧
    RawEcPublicKey.visit_map [(Value.int 128, Value.int 0)] = .error DeError.typeError :=
  ⟨by decide,
    (claim_C9_non_i8_key ffBytes ffBytes (by decide) (by decide)
      (Value.int 128) (Value.int 0)
      (by intro n hn; injection hn with h; omega)).1 []⟩

/-- Witness for C8 at x = y = 32 bytes of 0xFF. -/
theorem claim_C8_ec2_alg_absent_ambiguity_witness :
    ffBytes.length = 32 ∧
    P256PublicKey.deserialize
        [(Value.int 1, Value.int 2), (Value.int (-1), Value.int 1),
          (Value.int (-2), Value.bytes ffBytes), (Value.int (-3), Value.bytes ffBytes)] =
      .ok { x := ffBytes, y := ffBytes } :=
  ⟨by decide,
    (claim_C8_ec2_alg_absent_ambiguity ffBytes ffBytes (by decide) (by decide)).1⟩

end Cosey
